import Mathlib

/-!
Verification of the shuffle dispatch subsystem of deltafs-vpic-preload.

The definitions below are a shallow embedding of `src/preload_shuffle.cc`
(the 3-hop write/deliver paths, the epoch coordinator, the stats
callbacks) and, where indicated, of the older `shuffle_write` path.
Byte buffers are `List Nat` with every element a byte value (< 256);
machine integer truncations (`htonl`, `htons`, the `unsigned char` casts
on the length prefixes) are made explicit with `% 256` / `% 2 ^ 32` /
`% 2 ^ 16` arithmetic.
-/

deriving instance DecidableEq for Except

namespace DeltafsVpicPreload

/-- Big-endian reassembly of four bytes, as done by `ntohl` on a 4-byte
`memcpy` from the wire (`preload_shuffle.cc` lines 103 and 107). -/
def be32 (a b c d : Nat) : Nat :=
  ((a * 256 + b) * 256 + c) * 256 + d

/-- Big-endian reassembly of two bytes, as done by `ntohs` on a 2-byte
`memcpy` from the wire (`preload_shuffle.cc` line 145). -/
def be16 (a b : Nat) : Nat :=
  a * 256 + b

/-- The four bytes that `memcpy`ing the `uint32_t` result of `htonl x`
places in the outgoing buffer (network byte order, most significant
first); the `% 256` per byte realises the truncation of `x` to 32 bits. -/
def htonl (x : Nat) : List Nat :=
  [x / 2 ^ 24 % 256, x / 2 ^ 16 % 256, x / 2 ^ 8 % 256, x % 256]

/-- The two bytes that `memcpy`ing the `uint16_t` result of `htons x`
places in the outgoing buffer. -/
def htons (x : Nat) : List Nat :=
  [x / 2 ^ 8 % 256, x % 256]

/-- `strlen` on a byte sequence: number of bytes before the first NUL.
The source calls `strlen(fname)` on a pointer into the receive buffer
(`preload_shuffle.cc` line 123); we model the scan over the remaining
bytes of the buffer, total on the whole list. -/
def cstrlen : List Nat → Nat
  | [] => 0
  | b :: bs => if b = 0 then 0 else cstrlen bs + 1

/-- The tuple carried by one wire frame: the decoded
(src, dst, fname, data, epoch) delivered by `_3h_shuffle_deliver`. -/
structure DecRec where
  src : Nat
  dst : Nat
  fname : List Nat
  data : List Nat
  epoch : Nat
deriving DecidableEq, Repr

/-- The fatal aborts the receive path can take; the source prints
`rpc_corruption` for every shortfall, `bad src` / `bad dst` for the rank
mismatches, and (with assertions enabled) raises on
`assert(strlen(fname) == fname_len)`.  Distinct constructors record at
which parsing step the abort happened. -/
inductive DecErr where
  | corrupt_rank
  | bad_src
  | bad_dst
  | corrupt_fname_len
  | corrupt_fname
  | assert_fname
  | corrupt_data_len
  | corrupt_data
  | corrupt_epoch
deriving DecidableEq, Repr

/-- Epoch step of the `_3h_shuffle_deliver` parser
(`preload_shuffle.cc` lines 141-146): fewer than 2 remaining bytes is a
corruption abort, otherwise `ntohs` of the next two bytes; any bytes
after them are never inspected. -/
def decode_epoch (src dst : Nat) (fname data r5 : List Nat) :
    Except DecErr DecRec :=
  match r5 with
  | e1 :: e2 :: _ => .ok ⟨src, dst, fname, data, be16 e1 e2⟩
  | _ => .error .corrupt_epoch

/-- Data step of the `_3h_shuffle_deliver` parser (`preload_shuffle.cc`
lines 127-139): a 1-byte length (abort when absent), then that many
payload bytes (abort when fewer remain). -/
def decode_data (src dst : Nat) (fname r3 : List Nat) :
    Except DecErr DecRec :=
  match r3 with
  | [] => .error .corrupt_data_len
  | l :: r4 =>
    if r4.length < l then .error .corrupt_data
    else decode_epoch src dst fname (r4.take l) (r4.drop l)

/-- Name step of the `_3h_shuffle_deliver` parser (`preload_shuffle.cc`
lines 112-125): a 1-byte length (abort when absent), then the name
bytes plus the trailing NUL (abort when fewer than `fname_len + 1`
remain); `assert(strlen(fname) == fname_len)` is the `cstrlen` check. -/
def decode_fname (src dst : Nat) (rest : List Nat) :
    Except DecErr DecRec :=
  match rest with
  | [] => .error .corrupt_fname_len
  | n :: r2 =>
    if r2.length < n + 1 then .error .corrupt_fname
    else if cstrlen r2 ≠ n then .error .assert_fname
    else decode_data src dst (r2.take n) (r2.drop (n + 1))

/-- The parsing half of `_3h_shuffle_deliver` (`preload_shuffle.cc`
lines 100-146): 8 bytes of ranks (abort when fewer), the embedded src
and dst compared against the transport-carried `src`/`dst` arguments,
then the name, data and epoch steps. -/
def _3h_frame_decode (src dst : Nat) (buf : List Nat) :
    Except DecErr DecRec :=
  match buf with
  | a :: b :: c :: d :: a2 :: b2 :: c2 :: d2 :: rest =>
    if src ≠ be32 a b c d then .error .bad_src
    else if dst ≠ be32 a2 b2 c2 d2 then .error .bad_dst
    else decode_fname src dst rest
  | _ => .error .corrupt_rank

/-- The estimated rpc size computed by `_3h_shuffle_write`
(`preload_shuffle.cc` lines 232-236): 4 (src) + 4 (dst) +
1 + |fname| + 1 (name length, name, NUL) + 1 + |data| (data length,
data) + 2 (epoch). -/
def rpc_sz (fname data : List Nat) : Nat :=
  4 + 4 + (1 + fname.length + 1) + (1 + data.length) + 2

/-- The framing half of `_3h_shuffle_write` (`preload_shuffle.cc` lines
239-261): the bytes written sequentially into `buf`.  The `% 256` on the
two length prefixes realises the `static_cast<unsigned char>`. -/
def _3h_frame_encode (src dst : Nat) (fname data : List Nat)
    (epoch : Nat) : List Nat :=
  htonl src ++ htonl dst
    ++ [fname.length % 256] ++ fname ++ [0]
    ++ [data.length % 256] ++ data
    ++ htons epoch

example :
    _3h_frame_encode 1 0 [0x78] [0xAA, 0xAA, 0xAA] 7 =
      [0x00, 0x00, 0x00, 0x01, 0x00, 0x00, 0x00, 0x00, 0x01, 0x78,
       0x00, 0x03, 0xAA, 0xAA, 0xAA, 0x00, 0x07] := by decide

example :
    _3h_frame_decode 1 0 (_3h_frame_encode 1 0 [0x78] [0xAA, 0xAA, 0xAA] 7) =
      .ok ⟨1, 0, [0x78], [0xAA, 0xAA, 0xAA], 7⟩ := by decide

/-- The placement-relevant fields of the process state used by
`_3h_shuffle_write`: the nexus world size and rank, the
`IS_BYPASS_PLACEMENT(pctx.mode)` flag, and the ch-placement
configuration (`SHUFFLE_Placement_protocol`, `SHUFFLE_Virtual_factor`,
seed fixed at 0 by `_3h_shuffler_init_ch_placement`). -/
structure PlacementConfig where
  worldSize : Nat
  myRank : Nat
  bypass : Bool
  proto : String
  vf : Nat
deriving DecidableEq, Repr

/-- The destination-rank computation of `_3h_shuffle_write`
(`preload_shuffle.cc` lines 202-214).  The external hash and
ch-placement libraries enter as function parameters: `xxhash32 bytes
seed`, `xxhash64 bytes seed`, and `ch_find proto size vf seed hash64`
standing for `ch_placement_find_closest` on the instance built by
`ch_placement_initialize(proto, size, vf, 0)`. -/
def _3h_dest (xxhash32 xxhash64 : List Nat → Nat → Nat)
    (ch_find : String → Nat → Nat → Nat → Nat → Nat)
    (cfg : PlacementConfig) (fname : List Nat) : Nat :=
  if cfg.worldSize ≠ 1 then
    if cfg.bypass then xxhash32 fname 0 % cfg.worldSize
    else ch_find cfg.proto cfg.worldSize cfg.vf 0 (xxhash64 fname 0)
  else cfg.myRank

/-- Observable routing action of one 3-hop send. -/
inductive SendAction where
  | transport_send (dst : Nat)
  | local_deliver (dst : Nat)
deriving DecidableEq, Repr

/-- Modelled from the spec: `shuffler_send` (from `shuffler/shuffler.h`,
a repository component not present under `src/`).  Spec section 4.5:
"Any hop is elided if source and next-hop share identity"; property 7 of
section 8: when the destination is the sending rank itself the record
goes straight to the local delivery sink and no transport send occurs.
Otherwise the frame is posted to the transport toward `dst`. -/
def shuffler_send (src dst : Nat) : List SendAction :=
  if dst = src then [.local_deliver dst] else [.transport_send dst]

/-- The routing behaviour of `_3h_shuffle_write` (`preload_shuffle.cc`
lines 202-271): compute the destination, then hand the encoded frame to
`shuffler_send`. -/
def _3h_shuffle_write (xxhash32 xxhash64 : List Nat → Nat → Nat)
    (ch_find : String → Nat → Nat → Nat → Nat → Nat)
    (cfg : PlacementConfig) (fname : List Nat) : List SendAction :=
  shuffler_send cfg.myRank (_3h_dest xxhash32 xxhash64 ch_find cfg fname)

/-- Observable action of the older `shuffle_write`
(`src/unnamed/part_000`). -/
inductive OldWriteAction where
  | local_write
  | rpc_send (peer : Nat)
deriving DecidableEq, Repr

/-- Routing decision of the older `shuffle_write`
(`src/unnamed/part_000` lines 217-227): alone in the world it writes
locally (`shuffle_write_local`), otherwise it forwards to the neighbour
`(rank + 1) % count`. -/
def shuffle_write_old (count rank : Nat) : List OldWriteAction :=
  if count = 1 then [.local_write] else [.rpc_send ((rank + 1) % count)]

/-- The two shuffle topologies (`ctx->type`). -/
inductive ShuffleType where
  | shuffle_nn
  | shuffle_3hop
deriving DecidableEq, Repr

/-- Observable actions of `shuffle_epoch_end`. -/
inductive EpochEndAction where
  | nn_flush_rpcq
  | nn_wait
deriving DecidableEq, Repr

/-- `shuffle_epoch_end` (`preload_shuffle.cc` lines 65-75): under 3H the
body is a bare `// TODO` and performs nothing; under NN it calls
`nn_shuffler_flush_rpcq()` and then, when `nnctx.force_sync` is unset,
`nn_shuffler_wait()` (wait for rpc replies). -/
def shuffle_epoch_end (ty : ShuffleType) (force_sync : Bool) :
    List EpochEndAction :=
  match ty with
  | .shuffle_3hop => []
  | .shuffle_nn =>
    .nn_flush_rpcq :: (if force_sync then [] else [.nn_wait])

/-- Observable events of the receive path `_3h_shuffle_deliver`. -/
inductive DeliverEvent where
  | abort_decode (e : DecErr)
  | foreign_write (fname data : List Nat) (epoch : Nat)
  | recv_trace (fname data : List Nat) (epoch : Nat)
  | abort_xxwrite
deriving DecidableEq, Repr

/-- The full receive path `_3h_shuffle_deliver` (`preload_shuffle.cc`
lines 77-168) as its sequence of observable events: parse the frame
(any parse abort ends the run), call `preload_foreign_write` with the
resolved path, data and epoch (line 151), then — when `pctx.testin` is
set and `pctx.logfd` is valid — append the `[RECV]` trace line with the
xxhash32 data checksum (lines 154-163), and finally abort with
`xxwrite` when the foreign write returned non-zero (lines 165-167).
`write_ok` stands for `preload_foreign_write` returning 0. -/
def _3h_shuffle_deliver (testin logfd_ok write_ok : Bool)
    (src dst : Nat) (buf : List Nat) : List DeliverEvent :=
  match _3h_frame_decode src dst buf with
  | .error e => [.abort_decode e]
  | .ok r =>
    .foreign_write r.fname r.data r.epoch ::
      ((if testin && logfd_ok then
          [.recv_trace r.fname r.data r.epoch]
        else []) ++
        (if write_ok then [] else [.abort_xxwrite]))

/-- The monitoring counters touched by the three stats callbacks
(`pctx.mctx`), modelled as unbounded naturals. -/
structure MonCtx where
  min_nms : Nat
  max_nms : Nat
  nms : Nat
  min_nmr : Nat
  max_nmr : Nat
  nmr : Nat
  nmd : Nat
deriving DecidableEq, Repr

/-- `shuffle_msg_sent` (`preload_shuffle.cc` lines 476-480); the size
argument `n` is ignored. -/
def shuffle_msg_sent (n : Nat) (m : MonCtx) : MonCtx :=
  { m with
    min_nms := m.min_nms + 1
    max_nms := m.max_nms + 1
    nms := m.nms + 1 }

/-- `shuffle_msg_replied` (`preload_shuffle.cc` lines 482-484). -/
def shuffle_msg_replied (m : MonCtx) : MonCtx :=
  { m with nmd := m.nmd + 1 }

/-- `shuffle_msg_received` (`preload_shuffle.cc` lines 486-490). -/
def shuffle_msg_received (m : MonCtx) : MonCtx :=
  { m with
    min_nmr := m.min_nmr + 1
    max_nmr := m.max_nmr + 1
    nmr := m.nmr + 1 }

/-- Pointwise order on the monitoring counters (used to state that the
callbacks are monotone). -/
def MonLe (a b : MonCtx) : Prop :=
  a.min_nms ≤ b.min_nms ∧ a.max_nms ≤ b.max_nms ∧ a.nms ≤ b.nms ∧
    a.min_nmr ≤ b.min_nmr ∧ a.max_nmr ≤ b.max_nmr ∧ a.nmr ≤ b.nmr ∧
    a.nmd ≤ b.nmd

/-- The counter equalities `min_nms = max_nms = nms` and
`min_nmr = max_nmr = nmr` maintained by the callbacks. -/
def MonBalanced (m : MonCtx) : Prop :=
  (m.min_nms = m.max_nms ∧ m.max_nms = m.nms) ∧
    (m.min_nmr = m.max_nmr ∧ m.max_nmr = m.nmr)

instance (a b : MonCtx) : Decidable (MonLe a b) := by
  unfold MonLe; infer_instance

instance (m : MonCtx) : Decidable (MonBalanced m) := by
  unfold MonBalanced; infer_instance

/-- A buffer is a well-formed frame for carrier ranks `src`/`dst` when
it is exactly the encoder output of a record within the wire limits
whose embedded ranks are those of the carrier (spec section 6, "Wire
frame"). -/
def WellFormedFrame (src dst : Nat) (buf : List Nat) : Prop :=
  ∃ fname data epoch,
    fname.length ≤ 255 ∧ data.length ≤ 255 ∧
      (∀ b ∈ fname, b ≠ 0) ∧
      src < 2 ^ 32 ∧ dst < 2 ^ 32 ∧ epoch < 2 ^ 16 ∧
      buf = _3h_frame_encode src dst fname data epoch

/-! Helper lemmas. -/

theorem be32_htonl (x : Nat) :
    be32 (x / 2 ^ 24 % 256) (x / 2 ^ 16 % 256) (x / 2 ^ 8 % 256)
      (x % 256) = x % 2 ^ 32 := by
  unfold be32
  omega

theorem be16_htons (x : Nat) :
    be16 (x / 2 ^ 8 % 256) (x % 256) = x % 2 ^ 16 := by
  unfold be16
  omega

theorem cstrlen_append_nul (xs t : List Nat) (h : ∀ b ∈ xs, b ≠ 0) :
    cstrlen (xs ++ 0 :: t) = xs.length := by
  induction xs with
  | nil => simp [cstrlen]
  | cons b bs ih =>
    have hb : b ≠ 0 := h b (by simp)
    have ih' := ih (fun x hx => h x (by simp [hx]))
    simp [cstrlen, hb, ih']

theorem cstrlen_append_of_lt (xs t : List Nat) (n : Nat)
    (h : cstrlen xs = n) (hn : n < xs.length) :
    cstrlen (xs ++ t) = n := by
  induction xs generalizing n with
  | nil => simp at hn
  | cons b bs ih =>
    by_cases hb : b = 0
    · simp only [cstrlen, if_pos hb] at h
      simp [cstrlen, hb, ← h]
    · simp only [cstrlen, if_neg hb] at h
      simp only [List.length_cons] at hn
      have ih' := ih (cstrlen bs) rfl (by omega)
      simp [cstrlen, hb, ih', ← h]

/-- Dropping the name field and its NUL terminator. -/
theorem drop_name_nul (xs : List Nat) (y : Nat) (t : List Nat) :
    (xs ++ y :: t).drop (xs.length + 1) = t := by
  rw [show xs ++ y :: t = (xs ++ [y]) ++ t by simp]
  exact List.drop_left' (by simp)

/-- Taking the name field back out. -/
theorem take_name (xs : List Nat) (y : Nat) (t : List Nat) :
    (xs ++ y :: t).take xs.length = xs := by
  rw [show xs ++ y :: t = xs ++ (y :: t) from rfl]
  exact List.take_left xs (y :: t)

/-- Round trip: decoding an encoder output under the same carrier ranks
returns exactly the encoded record. -/
theorem frame_decode_encode (src dst : Nat) (fname data : List Nat)
    (epoch : Nat) (hs : src < 2 ^ 32) (hd : dst < 2 ^ 32)
    (he : epoch < 2 ^ 16) (hn : fname.length ≤ 255)
    (hl : data.length ≤ 255) (hz : ∀ b ∈ fname, b ≠ 0) :
    _3h_frame_decode src dst (_3h_frame_encode src dst fname data epoch) =
      .ok ⟨src, dst, fname, data, epoch⟩ := by
  have hn' : fname.length % 256 = fname.length := Nat.mod_eq_of_lt (by omega)
  have hl' : data.length % 256 = data.length := Nat.mod_eq_of_lt (by omega)
  have hsrc : be32 (src / 2 ^ 24 % 256) (src / 2 ^ 16 % 256)
      (src / 2 ^ 8 % 256) (src % 256) = src := by
    rw [be32_htonl, Nat.mod_eq_of_lt hs]
  have hdst : be32 (dst / 2 ^ 24 % 256) (dst / 2 ^ 16 % 256)
      (dst / 2 ^ 8 % 256) (dst % 256) = dst := by
    rw [be32_htonl, Nat.mod_eq_of_lt hd]
  unfold _3h_frame_encode htonl htons
  simp only [List.cons_append, List.nil_append, List.append_assoc]
  simp only [_3h_frame_decode]
  rw [if_neg (by rw [hsrc]; exact fun h => h rfl)]
  rw [if_neg (by rw [hdst]; exact fun h => h rfl)]
  simp only [decode_fname, hn']
  rw [if_neg (by simp)]
  rw [if_neg (by rw [cstrlen_append_nul _ _ hz]; exact fun h => h rfl)]
  rw [take_name, drop_name_nul]
  simp only [decode_data, hl']
  rw [if_neg (by simp)]
  rw [List.take_left, List.drop_left]
  simp only [decode_epoch]
  rw [be16_htons, Nat.mod_eq_of_lt he]

theorem decode_epoch_append (src dst : Nat) (fname data r5 t : List Nat)
    (r : DecRec) (h : decode_epoch src dst fname data r5 = .ok r) :
    decode_epoch src dst fname data (r5 ++ t) = .ok r := by
  match r5 with
  | [] => simp [decode_epoch] at h
  | [e1] => simp [decode_epoch] at h
  | e1 :: e2 :: rest =>
    simp only [decode_epoch, List.cons_append] at h ⊢
    exact h

theorem decode_data_append (src dst : Nat) (fname r3 t : List Nat)
    (r : DecRec) (h : decode_data src dst fname r3 = .ok r) :
    decode_data src dst fname (r3 ++ t) = .ok r := by
  match r3 with
  | [] => simp [decode_data] at h
  | l :: r4 =>
    simp only [decode_data, List.cons_append] at h ⊢
    by_cases hl : r4.length < l
    · rw [if_pos hl] at h; simp at h
    · rw [if_neg hl] at h
      rw [if_neg (by simp; omega)]
      rw [List.take_append_of_le_length (by omega),
        List.drop_append_of_le_length (by omega)]
      exact decode_epoch_append _ _ _ _ _ _ _ h

theorem decode_fname_append (src dst : Nat) (rest t : List Nat)
    (r : DecRec) (h : decode_fname src dst rest = .ok r) :
    decode_fname src dst (rest ++ t) = .ok r := by
  match rest with
  | [] => simp [decode_fname] at h
  | n :: r2 =>
    simp only [decode_fname, List.cons_append] at h ⊢
    by_cases h1 : r2.length < n + 1
    · rw [if_pos h1] at h; simp at h
    · rw [if_neg h1] at h
      rw [if_neg (by simp; omega)]
      by_cases h2 : cstrlen r2 ≠ n
      · rw [if_pos h2] at h; simp at h
      · rw [if_neg h2] at h
        push_neg at h2
        rw [if_neg (by
          rw [cstrlen_append_of_lt r2 t n h2 (by omega)]
          exact fun hh => hh rfl)]
        rw [List.take_append_of_le_length (by omega),
          List.drop_append_of_le_length (by omega)]
        exact decode_data_append _ _ _ _ _ _ h

/-! Claim theorems. -/

/-- C1: for every record with non-empty NUL-free name of length at most
255 and payload of length at most 255 (ranks below 2^32, epoch below
2^16 as carried on the wire), decoding the buffer produced by the frame
encoder of `_3h_shuffle_write` with the parser of
`_3h_shuffle_deliver` yields back the same (src, dst, name, payload,
epoch) tuple. -/
theorem claim_frame_roundtrip (src dst : Nat) (fname data : List Nat)
    (epoch : Nat) (hne : 0 < fname.length) (hn : fname.length ≤ 255)
    (hz : ∀ b ∈ fname, b ≠ 0) (hl : data.length ≤ 255)
    (hs : src < 2 ^ 32) (hd : dst < 2 ^ 32) (he : epoch < 2 ^ 16) :
    _3h_frame_decode src dst (_3h_frame_encode src dst fname data epoch) =
      .ok ⟨src, dst, fname, data, epoch⟩ :=
  frame_decode_encode src dst fname data epoch hs hd he hn hl hz

theorem claim_frame_roundtrip_witness :
    _3h_frame_decode 1 0 (_3h_frame_encode 1 0 [120] [170, 170, 170] 7) =
      .ok ⟨1, 0, [120], [170, 170, 170], 7⟩ :=
  claim_frame_roundtrip 1 0 [120] [170, 170, 170] 7 (by decide)
    (by decide) (by decide) (by decide) (by decide) (by decide) (by decide)

/-- C2: encoding src=1, dst=0, name="x", payload=0xAA×3, epoch=7 yields
exactly the 17 bytes 00 00 00 01 00 00 00 00 01 78 00 03 AA AA AA 00 07,
and in general the encoder lays out big-endian u32 src, big-endian u32
dst, a one-byte name length, the name, a NUL, a one-byte payload
length, the payload, and big-endian u16 epoch, in that order. -/
theorem claim_wire_layout :
    _3h_frame_encode 1 0 [0x78] [0xAA, 0xAA, 0xAA] 7 =
      [0x00, 0x00, 0x00, 0x01, 0x00, 0x00, 0x00, 0x00, 0x01, 0x78,
       0x00, 0x03, 0xAA, 0xAA, 0xAA, 0x00, 0x07] ∧
    ∀ (src dst : Nat) (fname data : List Nat) (epoch : Nat),
      fname.length ≤ 255 → data.length ≤ 255 →
      _3h_frame_encode src dst fname data epoch =
        htonl src ++ htonl dst ++ [fname.length] ++ fname ++ [0]
          ++ [data.length] ++ data ++ htons epoch := by
  constructor
  · decide
  · intro src dst fname data epoch hn hl
    unfold _3h_frame_encode
    rw [Nat.mod_eq_of_lt (by omega : fname.length < 256),
      Nat.mod_eq_of_lt (by omega : data.length < 256)]

theorem claim_wire_layout_witness :
    _3h_frame_encode 1 0 [120] [170, 170, 170] 7 =
      htonl 1 ++ htonl 0 ++ [1] ++ [120] ++ [0] ++ [3]
        ++ [170, 170, 170] ++ htons 7 :=
  claim_wire_layout.2 1 0 [120] [170, 170, 170] 7 (by decide) (by decide)

/-- C9: the frame parser of `_3h_shuffle_deliver` never inspects bytes
past the 2-byte epoch field: whenever a buffer decodes successfully,
the buffer extended by any byte suffix also decodes successfully to the
same record. -/
theorem claim_decode_trailing (src dst : Nat) (buf t : List Nat)
    (r : DecRec) (h : _3h_frame_decode src dst buf = .ok r) :
    _3h_frame_decode src dst (buf ++ t) = .ok r := by
  rcases buf with _ | ⟨a, _ | ⟨b, _ | ⟨c, _ | ⟨d, _ | ⟨a2, _ | ⟨b2,
    _ | ⟨c2, _ | ⟨d2, rest⟩⟩⟩⟩⟩⟩⟩⟩
  · simp [_3h_frame_decode] at h
  · simp [_3h_frame_decode] at h
  · simp [_3h_frame_decode] at h
  · simp [_3h_frame_decode] at h
  · simp [_3h_frame_decode] at h
  · simp [_3h_frame_decode] at h
  · simp [_3h_frame_decode] at h
  · simp [_3h_frame_decode] at h
  · simp only [_3h_frame_decode, List.cons_append] at h ⊢
    by_cases h1 : src ≠ be32 a b c d
    · rw [if_pos h1] at h; simp at h
    · rw [if_neg h1] at h ⊢
      by_cases h2 : dst ≠ be32 a2 b2 c2 d2
      · rw [if_pos h2] at h; simp at h
      · rw [if_neg h2] at h ⊢
        exact decode_fname_append _ _ _ _ _ h

theorem claim_decode_trailing_witness :
    _3h_frame_decode 1 0
        (_3h_frame_encode 1 0 [120] [170, 170, 170] 7 ++ [9, 9, 9]) =
      .ok ⟨1, 0, [120], [170, 170, 170], 7⟩ :=
  claim_decode_trailing 1 0 (_3h_frame_encode 1 0 [120] [170, 170, 170] 7)
    [9, 9, 9] ⟨1, 0, [120], [170, 170, 170], 7⟩ (by decide)

/-- C3: the receive-path parser either aborts fatally or delivers.  It
aborts with a corruption error whenever the remaining buffer is too
short at any parsing step (fewer than 8 bytes for the two ranks, fewer
than 1 byte for a length prefix, fewer than `name_len + 1` bytes for
the name plus NUL, fewer than `payload_len` bytes for the payload,
fewer than 2 bytes for the epoch), aborts whenever the embedded src
differs from the transport-carried src or the embedded dst differs from
the local rank, and on a well-formed buffer whose embedded ranks agree
with the carrier no abort occurs. -/
theorem claim_decoder_aborts_or_delivers (src dst : Nat) (buf : List Nat) :
    (buf.length < 8 → _3h_frame_decode src dst buf = .error .corrupt_rank) ∧
    (∀ a b c d a2 b2 c2 d2 rest,
      buf = a :: b :: c :: d :: a2 :: b2 :: c2 :: d2 :: rest →
      (src ≠ be32 a b c d →
        _3h_frame_decode src dst buf = .error .bad_src) ∧
      (src = be32 a b c d → dst ≠ be32 a2 b2 c2 d2 →
        _3h_frame_decode src dst buf = .error .bad_dst) ∧
      (src = be32 a b c d → dst = be32 a2 b2 c2 d2 →
        (rest = [] →
          _3h_frame_decode src dst buf = .error .corrupt_fname_len) ∧
        (∀ n r2, rest = n :: r2 →
          (r2.length < n + 1 →
            _3h_frame_decode src dst buf = .error .corrupt_fname) ∧
          (¬ r2.length < n + 1 → cstrlen r2 = n →
            (r2.drop (n + 1) = [] →
              _3h_frame_decode src dst buf = .error .corrupt_data_len) ∧
            (∀ l r4, r2.drop (n + 1) = l :: r4 →
              (r4.length < l →
                _3h_frame_decode src dst buf = .error .corrupt_data) ∧
              (¬ r4.length < l → (r4.drop l).length < 2 →
                _3h_frame_decode src dst buf = .error .corrupt_epoch)))))) ∧
    (WellFormedFrame src dst buf → ∃ r, _3h_frame_decode src dst buf = .ok r) := by
  refine ⟨?_, ?_, ?_⟩
  · intro h
    rcases buf with _ | ⟨a, _ | ⟨b, _ | ⟨c, _ | ⟨d, _ | ⟨a2, _ | ⟨b2,
      _ | ⟨c2, _ | ⟨d2, rest⟩⟩⟩⟩⟩⟩⟩⟩ <;>
      first
        | rfl
        | (simp at h; omega)
  · rintro a b c d a2 b2 c2 d2 rest rfl
    refine ⟨?_, ?_, ?_⟩
    · intro hsrc
      simp only [_3h_frame_decode]
      rw [if_pos hsrc]
    · intro hsrc hdst
      simp only [_3h_frame_decode]
      rw [if_neg (not_not_intro hsrc), if_pos hdst]
    · intro hsrc hdst
      have hred : _3h_frame_decode src dst
          (a :: b :: c :: d :: a2 :: b2 :: c2 :: d2 :: rest) =
          decode_fname src dst rest := by
        simp only [_3h_frame_decode]
        rw [if_neg (not_not_intro hsrc), if_neg (not_not_intro hdst)]
      rw [hred]
      refine ⟨?_, ?_⟩
      · rintro rfl; rfl
      · rintro n r2 rfl
        refine ⟨?_, ?_⟩
        · intro hlen
          simp only [decode_fname]
          rw [if_pos hlen]
        · intro hlen hcs
          have hred2 : decode_fname src dst (n :: r2) =
              decode_data src dst (r2.take n) (r2.drop (n + 1)) := by
            simp only [decode_fname]
            rw [if_neg hlen, if_neg (not_not_intro hcs)]
          rw [hred2]
          refine ⟨?_, ?_⟩
          · intro hdrop; rw [hdrop]; rfl
          · rintro l r4 hdrop
            rw [hdrop]
            refine ⟨?_, ?_⟩
            · intro hl4
              simp only [decode_data]
              rw [if_pos hl4]
            · intro hl4 hep
              simp only [decode_data]
              rw [if_neg hl4]
              rcases hdl : r4.drop l with _ | ⟨e1, _ | ⟨e2, rest5⟩⟩
              · rfl
              · rfl
              · rw [hdl] at hep; simp at hep; omega
  · rintro ⟨fname, data, epoch, hn, hl, hz, hs, hd, he, rfl⟩
    exact ⟨_, frame_decode_encode src dst fname data epoch hs hd he hn hl hz⟩

theorem claim_decoder_aborts_or_delivers_witness :
    _3h_frame_decode 1 0 [0, 0, 7] = .error .corrupt_rank ∧
    _3h_frame_decode 5 0 [0, 0, 0, 1, 0, 0, 0, 0, 1, 120, 0, 0, 0, 7] =
      .error .bad_src ∧
    _3h_frame_decode 1 0 [0, 0, 0, 1, 0, 0, 0, 0, 9, 120, 0] =
      .error .corrupt_fname ∧
    (∃ r, _3h_frame_decode 1 0 (_3h_frame_encode 1 0 [120] [170] 7) =
      .ok r) := by
  refine ⟨(claim_decoder_aborts_or_delivers 1 0 [0, 0, 7]).1 (by decide),
    ((claim_decoder_aborts_or_delivers 5 0
        [0, 0, 0, 1, 0, 0, 0, 0, 1, 120, 0, 0, 0, 7]).2.1
      0 0 0 1 0 0 0 0 [1, 120, 0, 0, 0, 7] rfl).1 (by decide),
    (((claim_decoder_aborts_or_delivers 1 0
          [0, 0, 0, 1, 0, 0, 0, 0, 9, 120, 0]).2.1
        0 0 0 1 0 0 0 0 [9, 120, 0] rfl).2.2 (by decide) (by decide)).2
      9 [120, 0] rfl |>.1 (by decide),
    (claim_decoder_aborts_or_delivers 1 0
        (_3h_frame_encode 1 0 [120] [170] 7)).2.2
      ⟨[120], [170], 7, by decide, by decide, by decide, by decide,
        by decide, by decide, rfl⟩⟩

/-- C4: with the bypass-placement flag set and more than one rank the
destination is `xxhash32(name, seed=0) mod N`; in every mode the
destination lies in `[0, N)` (granted the ch-placement library's range
contract and a valid own rank); and the destination is a deterministic
function of (protocol, world size, virtual factor, seed, name): two
configurations agreeing on those yield the same rank. -/
theorem claim_placement_dest (xxhash32 xxhash64 : List Nat → Nat → Nat)
    (ch_find : String → Nat → Nat → Nat → Nat → Nat)
    (cfg : PlacementConfig) (fname : List Nat) :
    (cfg.bypass = true → 1 < cfg.worldSize →
      _3h_dest xxhash32 xxhash64 ch_find cfg fname =
        xxhash32 fname 0 % cfg.worldSize) ∧
    (cfg.myRank < cfg.worldSize →
      (∀ h, ch_find cfg.proto cfg.worldSize cfg.vf 0 h < cfg.worldSize) →
      _3h_dest xxhash32 xxhash64 ch_find cfg fname < cfg.worldSize) ∧
    (∀ cfg2 : PlacementConfig, cfg.worldSize = cfg2.worldSize →
      cfg.bypass = cfg2.bypass → cfg.proto = cfg2.proto →
      cfg.vf = cfg2.vf → cfg.myRank < cfg.worldSize →
      cfg2.myRank < cfg2.worldSize →
      _3h_dest xxhash32 xxhash64 ch_find cfg fname =
        _3h_dest xxhash32 xxhash64 ch_find cfg2 fname) := by
  refine ⟨?_, ?_, ?_⟩
  · intro hb hn
    unfold _3h_dest
    rw [if_pos (by omega : cfg.worldSize ≠ 1), if_pos hb]
  · intro hr hch
    unfold _3h_dest
    split_ifs with h1 h2
    · exact Nat.mod_lt _ (by omega)
    · exact hch _
    · exact hr
  · intro cfg2 hws hb hp hv h1 h2
    rw [← hws] at h2
    unfold _3h_dest
    rw [← hws, ← hb, ← hp, ← hv]
    split_ifs with hA hB
    · rfl
    · rfl
    · omega

theorem claim_placement_dest_witness :
    _3h_dest (fun _ _ => 7) (fun _ _ => 0) (fun _ _ _ _ _ => 0)
        ⟨4, 2, true, "ring", 1024⟩ [102, 111, 111] = 7 % 4 ∧
    _3h_dest (fun _ _ => 7) (fun _ _ => 0) (fun _ _ _ _ _ => 0)
        ⟨4, 2, true, "ring", 1024⟩ [102, 111, 111] < 4 :=
  ⟨(claim_placement_dest (fun _ _ => 7) (fun _ _ => 0) (fun _ _ _ _ _ => 0)
      ⟨4, 2, true, "ring", 1024⟩ [102, 111, 111]).1 rfl (by decide),
    (claim_placement_dest (fun _ _ => 7) (fun _ _ => 0) (fun _ _ _ _ _ => 0)
      ⟨4, 2, true, "ring", 1024⟩ [102, 111, 111]).2.1 (by decide)
      (fun _ => by decide)⟩

/-- C5 counterexample: a record within the encoder's accepted limits
(name and payload both of length 255) produces a frame of 523 bytes,
exceeding the 200-byte stack buffer, so the size assertion
`rpc_sz <= sizeof(buf)` fires: the claim that every accepted record
fits in 200 bytes is false. -/
theorem claim_frame_size_cex :
    (List.replicate 255 (120 : Nat)).length ≤ 255 ∧
    (∀ b ∈ List.replicate 255 (120 : Nat), b ≠ 0) ∧
    (List.replicate 255 (170 : Nat)).length ≤ 255 ∧
    rpc_sz (List.replicate 255 120) (List.replicate 255 170) = 523 ∧
    ¬ rpc_sz (List.replicate 255 120) (List.replicate 255 170) ≤ 200 := by
  refine ⟨by rw [List.length_replicate], ?_,
    by rw [List.length_replicate],
    by simp only [rpc_sz, List.length_replicate],
    by simp only [rpc_sz, List.length_replicate]; omega⟩
  intro b hb
  rw [List.eq_of_mem_replicate hb]
  decide

/-- C5 amended: the encoded frame's total size always equals
4+4+1+|name|+1+1+|payload|+2 bytes, and whenever
|name| + |payload| ≤ 187 it does not exceed the 200-byte RPC payload
cap, so the size assertion guarding the 200-byte stack buffer does not
fire for such records. -/
theorem claim_frame_size_amended (src dst : Nat) (fname data : List Nat)
    (epoch : Nat) (h : fname.length + data.length ≤ 187) :
    (_3h_frame_encode src dst fname data epoch).length =
      rpc_sz fname data ∧
    rpc_sz fname data = 4 + 4 + 1 + fname.length + 1 + 1 + data.length + 2 ∧
    rpc_sz fname data ≤ 200 := by
  refine ⟨?_, by unfold rpc_sz; omega, by unfold rpc_sz; omega⟩
  simp only [_3h_frame_encode, htonl, htons, rpc_sz, List.length_append,
    List.length_cons, List.length_nil]
  omega

theorem claim_frame_size_amended_witness :
    (_3h_frame_encode 1 0 [120] [170, 170, 170] 7).length =
      rpc_sz [120] [170, 170, 170] ∧
    rpc_sz [120] [170, 170, 170] = 4 + 4 + 1 + 1 + 1 + 1 + 3 + 2 ∧
    rpc_sz [120] [170, 170, 170] ≤ 200 :=
  claim_frame_size_amended 1 0 [120] [170, 170, 170] 7 (by decide)

/-- C6: under the 3H topology `shuffle_epoch_end` is a TODO stub that
performs no flush and no wait, contradicting the claimed (and spec
section 4.6 intended) force-flush-and-drain semantics; under NN it
flushes the rpc queue and, unless `force_sync` is set, waits for rpc
replies. -/
theorem claim_epoch_end_actions :
    shuffle_epoch_end .shuffle_3hop true = [] ∧
    shuffle_epoch_end .shuffle_3hop false = [] ∧
    shuffle_epoch_end .shuffle_nn false = [.nn_flush_rpcq, .nn_wait] ∧
    shuffle_epoch_end .shuffle_nn true = [.nn_flush_rpcq] :=
  ⟨rfl, rfl, rfl, rfl⟩

/-- C7: when the placement destination equals the writing rank itself —
in particular in the single-rank world, where the destination is forced
to self — no transport send occurs: the 3-hop write delivers locally
(via the spec-modelled hop elision of `shuffler_send`), and the older
`shuffle_write` writes locally when alone in the world. -/
theorem claim_self_loop_shortcut (xxhash32 xxhash64 : List Nat → Nat → Nat)
    (ch_find : String → Nat → Nat → Nat → Nat → Nat)
    (cfg : PlacementConfig) (fname : List Nat) (count rank : Nat) :
    (cfg.worldSize = 1 →
      _3h_dest xxhash32 xxhash64 ch_find cfg fname = cfg.myRank) ∧
    (_3h_dest xxhash32 xxhash64 ch_find cfg fname = cfg.myRank →
      _3h_shuffle_write xxhash32 xxhash64 ch_find cfg fname =
        [.local_deliver cfg.myRank] ∧
      ∀ d, SendAction.transport_send d ∉
        _3h_shuffle_write xxhash32 xxhash64 ch_find cfg fname) ∧
    (count = 1 → shuffle_write_old count rank = [.local_write]) := by
  refine ⟨?_, ?_, ?_⟩
  · intro h
    unfold _3h_dest
    rw [if_neg (not_not_intro h)]
  · intro hd
    unfold _3h_shuffle_write shuffler_send
    rw [hd, if_pos rfl]
    exact ⟨rfl, by intro d; simp⟩
  · intro h
    unfold shuffle_write_old
    rw [if_pos h]

theorem claim_self_loop_shortcut_witness :
    _3h_shuffle_write (fun _ _ => 3) (fun _ _ => 0) (fun _ _ _ _ _ => 0)
        ⟨1, 0, false, "ring", 1024⟩ [102] = [.local_deliver 0] ∧
    shuffle_write_old 1 0 = [.local_write] :=
  ⟨((claim_self_loop_shortcut (fun _ _ => 3) (fun _ _ => 0)
        (fun _ _ _ _ _ => 0) ⟨1, 0, false, "ring", 1024⟩ [102] 1 0).2.1
      ((claim_self_loop_shortcut (fun _ _ => 3) (fun _ _ => 0)
        (fun _ _ _ _ _ => 0) ⟨1, 0, false, "ring", 1024⟩ [102] 1 0).1
        rfl)).1,
    (claim_self_loop_shortcut (fun _ _ => 3) (fun _ _ => 0)
      (fun _ _ _ _ _ => 0) ⟨1, 0, false, "ring", 1024⟩ [102] 1 0).2.2 rfl⟩

/-- C8 counterexample: on a valid frame in test mode the receive path
calls `preload_foreign_write` first and appends the `[RECV]` trace line
only afterwards, so the claim that the trace precedes the storage write
is false: the trace event never sits at a smaller index than the write
event. -/
theorem claim_recv_trace_order_cex :
    _3h_shuffle_deliver true true true 1 0
        (_3h_frame_encode 1 0 [120] [170] 7) =
      [.foreign_write [120] [170] 7, .recv_trace [120] [170] 7] ∧
    ∀ (i j : Nat),
      (_3h_shuffle_deliver true true true 1 0
          (_3h_frame_encode 1 0 [120] [170] 7))[i]? =
        some (DeliverEvent.recv_trace [120] [170] 7) →
      (_3h_shuffle_deliver true true true 1 0
          (_3h_frame_encode 1 0 [120] [170] 7))[j]? =
        some (DeliverEvent.foreign_write [120] [170] 7) →
      j < i := by
  have hev : _3h_shuffle_deliver true true true 1 0
      (_3h_frame_encode 1 0 [120] [170] 7) =
      [.foreign_write [120] [170] 7, .recv_trace [120] [170] 7] := by
    decide
  refine ⟨hev, ?_⟩
  intro i j hi hj
  rw [hev] at hi hj
  rcases i with _ | _ | i
  · exact absurd hi (by decide)
  · rcases j with _ | _ | j
    · decide
    · exact absurd hj (by decide)
    · simp at hj
  · simp at hi

/-- C8 amended: on the receive path in test mode the `[RECV]` trace
line is appended immediately after `preload_foreign_write` returns (and
before the fatal check of its return value), not before the write. -/
theorem claim_recv_trace_order_amended (write_ok : Bool) (src dst : Nat)
    (buf : List Nat) (r : DecRec)
    (h : _3h_frame_decode src dst buf = .ok r) :
    _3h_shuffle_deliver true true write_ok src dst buf =
      .foreign_write r.fname r.data r.epoch ::
        .recv_trace r.fname r.data r.epoch ::
        (if write_ok then [] else [.abort_xxwrite]) := by
  unfold _3h_shuffle_deliver
  rw [h]
  simp

theorem claim_recv_trace_order_amended_witness :
    _3h_shuffle_deliver true true true 1 0
        (_3h_frame_encode 1 0 [120] [170] 7) =
      .foreign_write [120] [170] 7 ::
        .recv_trace [120] [170] 7 :: (if true then [] else [.abort_xxwrite]) :=
  claim_recv_trace_order_amended true 1 0
    (_3h_frame_encode 1 0 [120] [170] 7) ⟨1, 0, [120], [170], 7⟩ (by decide)

/-- C10: each stats callback bumps exactly its own counters by one,
independently of the message-size argument; the equalities
`min_nms = max_nms = nms` and `min_nmr = max_nmr = nmr` are preserved
by every callback; and every counter is monotone non-decreasing under
every callback. -/
theorem claim_stats_counters (n : Nat) (m : MonCtx) :
    shuffle_msg_sent n m =
      ⟨m.min_nms + 1, m.max_nms + 1, m.nms + 1, m.min_nmr, m.max_nmr,
        m.nmr, m.nmd⟩ ∧
    shuffle_msg_replied m =
      ⟨m.min_nms, m.max_nms, m.nms, m.min_nmr, m.max_nmr, m.nmr,
        m.nmd + 1⟩ ∧
    shuffle_msg_received m =
      ⟨m.min_nms, m.max_nms, m.nms, m.min_nmr + 1, m.max_nmr + 1,
        m.nmr + 1, m.nmd⟩ ∧
    shuffle_msg_sent n m = shuffle_msg_sent 0 m ∧
    (MonBalanced m →
      MonBalanced (shuffle_msg_sent n m) ∧
      MonBalanced (shuffle_msg_replied m) ∧
      MonBalanced (shuffle_msg_received m)) ∧
    MonLe m (shuffle_msg_sent n m) ∧
    MonLe m (shuffle_msg_replied m) ∧
    MonLe m (shuffle_msg_received m) := by
  refine ⟨rfl, rfl, rfl, rfl, ?_, ?_, ?_, ?_⟩
  · intro hb
    simp only [MonBalanced, shuffle_msg_sent, shuffle_msg_replied,
      shuffle_msg_received] at hb ⊢
    omega
  · simp only [MonLe, shuffle_msg_sent]
    omega
  · simp only [MonLe, shuffle_msg_replied]
    omega
  · simp only [MonLe, shuffle_msg_received]
    omega

theorem claim_stats_counters_witness :
    MonBalanced (shuffle_msg_sent 5 ⟨0, 0, 0, 0, 0, 0, 0⟩) ∧
    MonBalanced (shuffle_msg_replied ⟨0, 0, 0, 0, 0, 0, 0⟩) ∧
    MonBalanced (shuffle_msg_received ⟨0, 0, 0, 0, 0, 0, 0⟩) :=
  (claim_stats_counters 5 ⟨0, 0, 0, 0, 0, 0, 0⟩).2.2.2.2.1 (by decide)

end DeltafsVpicPreload
